import Mathlib

/-!
Shallow embedding of the bootstrap-data / teacher-preparation engine
(`dspy/teleprompt/finetune_teleprompter.py` and `dspy/adapters/base.py`),
with theorems settling the frozen claims C1..C10 about it.

Modelling conventions:
- Python floats used for temperatures are embedded as rationals (`ℚ`);
  the code performs only `+` and `*` on them.
- A program's execution behaviour on one example is embedded as a function
  `runner : α → Option (π × τ)`: `none` means the Python call
  `program(**example.inputs())` raised an exception, `some (prediction, trace)`
  means it returned `prediction` having recorded the trace `τ` in the
  per-task `dspy.context(trace=[])` context.
- The nondeterministic completion order of `concurrent.futures.as_completed`
  is embedded as an explicit list `completion` of `(index, example)` pairs
  that is a permutation of `dataset.enum` (one submitted task per example).
- Fallible Python code (raised exceptions) is embedded as `Except String`.
-/

namespace DspyFT

/-- An LM client binding: a model name plus its `kwargs["temperature"]`.
Embeds the external LM collaborator of `finetune_teleprompter.py`. -/
structure LM where
  model : String
  temperature : ℚ
  deriving Repr, DecidableEq

/-- `lm.copy(temperature=t)`: per-call override that returns a new binding,
leaving the original unmodified (the embedding is pure, so the original
value is untouched by construction). -/
def LM.copy (lm : LM) (temperature : ℚ) : LM :=
  { lm with temperature := temperature }

/-- `copy_model_with_updated_temp` from `bootstrap_data_for_round`
(finetune_teleprompter.py lines 351-355):
`temp = sampling_temperature`; if `None`, `lm.kwargs["temperature"]`;
then `temp = temp + sampling_temperature_delta * sampling_round`;
return `lm.copy(temperature=temp)`. -/
def copy_model_with_updated_temp (sampling_temperature : Option ℚ)
    (sampling_temperature_delta : ℚ) (sampling_round : ℕ) (lm : LM) : LM :=
  let temp := match sampling_temperature with
    | none => lm.temperature
    | some t => t
  let temp2 := temp + sampling_temperature_delta * (sampling_round : ℚ)
  LM.copy lm temp2

/-- The dictionary built by `process_example` (finetune_teleprompter.py
lines 249-258), with the optional `score` key (present iff a metric was
given) and the optional `round` key (added later by
`bootstrap_data_for_round`). `α` = example, `π` = prediction, `τ` = trace. -/
structure BootstrapRecord (α π τ : Type) where
  ex : α
  prediction : π
  trace : τ
  example_ind : ℕ
  score : Option ℚ
  round : Option ℕ

/-- `process_example(example, example_ind, program, metric)`
(finetune_teleprompter.py lines 235-258): run the program inside a fresh
trace context; on exception return `None`; otherwise record example,
prediction, trace, `example_ind`, and a score iff a metric was supplied. -/
def process_example {α π τ : Type} (runner : α → Option (π × τ))
    (metric : Option (α → π → τ → ℚ)) (ex : α) (example_ind : ℕ) :
    Option (BootstrapRecord α π τ) :=
  match runner ex with
  | none => none
  | some pt =>
      some { ex := ex, prediction := pt.1, trace := pt.2,
             example_ind := example_ind,
             score := metric.map (fun m => m ex pt.1 pt.2),
             round := none }

/-- Comparison key used by the final `data.sort(key=lambda x: x['example_ind'])`. -/
def recLe {α π τ : Type} (a b : BootstrapRecord α π τ) : Prop :=
  a.example_ind ≤ b.example_ind

/-- Strict version of `recLe`; used to state that the returned records are
strictly ascending in `example_ind`. -/
def recLt {α π τ : Type} (a b : BootstrapRecord α π τ) : Prop :=
  a.example_ind < b.example_ind

instance {α π τ : Type} : DecidableRel (recLe (α := α) (π := π) (τ := τ)) :=
  fun a b => Nat.decLe a.example_ind b.example_ind

instance {α π τ : Type} : IsTotal (BootstrapRecord α π τ) recLe :=
  ⟨fun a b => Nat.le_total a.example_ind b.example_ind⟩

instance {α π τ : Type} : IsTrans (BootstrapRecord α π τ) recLe :=
  ⟨fun _ _ _ h1 h2 => Nat.le_trans h1 h2⟩

instance {α π τ : Type} : IsAntisymm (BootstrapRecord α π τ) recLt :=
  ⟨fun _ _ h1 h2 => absurd h2 (Nat.lt_asymm h1)⟩

/-- `process_dataset_threaded(dataset, program, metric, max_workers, max_errors)`
(finetune_teleprompter.py lines 218-233): submit one `process_example` task
per `(i, example)` in `enumerate(dataset)`; gather results in worker-pool
completion order (the `completion` argument, a permutation of
`dataset.enum`); drop `None` results; finally sort ascending by
`example_ind`.  `max_workers` only selects the pool size
(`max_workers if max_workers else 10`), which the abstraction absorbs into
`completion`; the `max_errors` parameter is accepted and never read, exactly
as in the source. -/
def process_dataset_threaded {α π τ : Type} (runner : α → Option (π × τ))
    (metric : Option (α → π → τ → ℚ)) (dataset : List α)
    (max_workers : Option ℕ) (max_errors : ℕ) (completion : List (ℕ × α)) :
    List (BootstrapRecord α π τ) :=
  let _num_threads : ℕ := match max_workers with
    | some t => if t = 0 then 10 else t
    | none => 10
  let _unused := max_errors
  List.insertionSort recLe
    (completion.filterMap (fun p => process_example runner metric p.2 p.1))

/-- Number of dataset examples on which program execution raises. -/
def countFailures {α π τ : Type} (runner : α → Option (π × τ))
    (dataset : List α) : ℕ :=
  dataset.countP (fun ex => (runner ex).isNone)

/-- Modelled from the spec: the external `Evaluate` collaborator
(`dspy.evaluate.evaluate.Evaluate`, not under `src/`), which
`bootstrap_data` invokes first as a cache-warming pass with the given
`max_errors` budget.  Per the spec (§4.3, §7): per-example execution
failures are counted as the run progresses, and as soon as the accumulated
errors exceed `max_errors` the whole operation fails fatally; once
exceeded, no further examples need be attempted. -/
def evaluateWarmup {α π τ : Type} (runner : α → Option (π × τ))
    (max_errors : ℕ) : List α → ℕ → Except String Unit
  | [], _ => Except.ok ()
  | ex :: rest, errs =>
      match runner ex with
      | some _ => evaluateWarmup runner max_errors rest errs
      | none =>
          if max_errors < errs + 1 then Except.error "Evaluate: max errors exceeded"
          else evaluateWarmup runner max_errors rest (errs + 1)

/-- `bootstrap_data(program, dataset, metric, num_threads, max_errors)`
(finetune_teleprompter.py lines 168-216): first the `Evaluate` cache-warming
pass (which enforces the `max_errors` budget and raises through this call if
it is exceeded), then `process_dataset_threaded`, whose result is returned. -/
def bootstrap_data {α π τ : Type} (runner : α → Option (π × τ))
    (metric : Option (α → π → τ → ℚ)) (dataset : List α)
    (num_threads : Option ℕ) (max_errors : ℕ) (completion : List (ℕ × α)) :
    Except String (List (BootstrapRecord α π τ)) := do
  let _ ← evaluateWarmup runner max_errors dataset 0
  Except.ok (process_dataset_threaded runner metric dataset num_threads max_errors completion)

/-- The completion-order-independent normal form of the records:
the non-failing examples processed in original dataset order. -/
def canonicalRecords {α π τ : Type} (runner : α → Option (π × τ))
    (metric : Option (α → π → τ → ℚ)) (dataset : List α) :
    List (BootstrapRecord α π τ) :=
  dataset.enum.filterMap (fun p => process_example runner metric p.2 p.1)

/-! Helper lemmas for the worker-pool executor. -/

theorem length_filterMap_add_countP {β γ : Type} (g : β → Option γ) (l : List β) :
    (l.filterMap g).length + l.countP (fun x => (g x).isNone) = l.length := by
  induction l with
  | nil => simp
  | cons a t ih =>
      rw [List.filterMap_cons, List.countP_cons]
      cases h : g a with
      | none => simp [h]; omega
      | some v => simp [h]; omega

theorem process_example_ind {α π τ : Type} (runner : α → Option (π × τ))
    (metric : Option (α → π → τ → ℚ)) (ex : α) (i : ℕ)
    (r : BootstrapRecord α π τ)
    (h : process_example runner metric ex i = some r) : r.example_ind = i := by
  unfold process_example at h
  cases hr : runner ex with
  | none => rw [hr] at h; exact absurd h (by simp)
  | some pt =>
      rw [hr] at h
      simp only [Option.some.injEq] at h
      rw [← h]

theorem process_example_isSome_iff {α π τ : Type} (runner : α → Option (π × τ))
    (metric : Option (α → π → τ → ℚ)) (ex : α) (i : ℕ) :
    (process_example runner metric ex i).isSome = (runner ex).isSome := by
  unfold process_example
  cases runner ex <;> simp

theorem pairwise_recLt_filterMap {α π τ : Type} (runner : α → Option (π × τ))
    (metric : Option (α → π → τ → ℚ)) (l : List (ℕ × α))
    (hl : l.Pairwise (fun p q => p.1 < q.1)) :
    (l.filterMap (fun p => process_example runner metric p.2 p.1)).Pairwise recLt := by
  refine List.pairwise_filterMap.mpr (hl.imp ?_)
  intro p q hpq r hr s hs
  have h1 := process_example_ind runner metric p.2 p.1 r (Option.mem_def.mp hr)
  have h2 := process_example_ind runner metric q.2 q.1 s (Option.mem_def.mp hs)
  unfold recLt
  rw [h1, h2]
  exact hpq

theorem pairwise_fst_lt_enum {α : Type} (l : List α) :
    l.enum.Pairwise (fun p q => p.1 < q.1) := by
  have h2 : (l.enum.map Prod.fst).Pairwise (· < ·) := by
    rw [List.enum_map_fst]; exact List.pairwise_lt_range l.length
  exact List.pairwise_map.mp h2

theorem pairwise_recLt_canonical {α π τ : Type} (runner : α → Option (π × τ))
    (metric : Option (α → π → τ → ℚ)) (dataset : List α) :
    (canonicalRecords runner metric dataset).Pairwise recLt :=
  pairwise_recLt_filterMap runner metric dataset.enum (pairwise_fst_lt_enum dataset)

theorem pairwise_recLt_of_recLe_nodup {α π τ : Type}
    (l : List (BootstrapRecord α π τ)) (hle : l.Pairwise recLe)
    (hnd : (l.map (fun r => r.example_ind)).Nodup) : l.Pairwise recLt := by
  have hne : l.Pairwise (fun a b => a.example_ind ≠ b.example_ind) :=
    List.pairwise_map.mp hnd
  have := hle.and hne
  exact this.imp (fun h => Nat.lt_of_le_of_ne h.1 h.2)

theorem nodup_map_ind_of_pairwise_recLt {α π τ : Type}
    (l : List (BootstrapRecord α π τ)) (h : l.Pairwise recLt) :
    (l.map (fun r => r.example_ind)).Nodup := by
  refine List.pairwise_map.mpr (h.imp ?_)
  intro a b hab
  exact Nat.ne_of_lt hab

/-- The sorted, filtered output of the worker pool is independent of the
completion order: it always equals the records of the non-failing examples
in original dataset order. -/
theorem process_dataset_threaded_eq_canonical {α π τ : Type}
    (runner : α → Option (π × τ)) (metric : Option (α → π → τ → ℚ))
    (dataset : List α) (max_workers : Option ℕ) (max_errors : ℕ)
    (completion : List (ℕ × α)) (hperm : completion.Perm dataset.enum) :
    process_dataset_threaded runner metric dataset max_workers max_errors completion
      = canonicalRecords runner metric dataset := by
  unfold process_dataset_threaded
  set g : ℕ × α → Option (BootstrapRecord α π τ) :=
    fun p => process_example runner metric p.2 p.1 with hg
  have hpermFM : (completion.filterMap g).Perm (canonicalRecords runner metric dataset) :=
    hperm.filterMap g
  have hsortPerm : (List.insertionSort recLe (completion.filterMap g)).Perm
      (canonicalRecords runner metric dataset) :=
    (List.perm_insertionSort recLe (completion.filterMap g)).trans hpermFM
  have hcanLt := pairwise_recLt_canonical runner metric dataset
  have hcanNd := nodup_map_ind_of_pairwise_recLt _ hcanLt
  have hsortNd : ((List.insertionSort recLe (completion.filterMap g)).map
      (fun r => r.example_ind)).Nodup :=
    ((hsortPerm.map (fun r => r.example_ind)).nodup_iff).mpr hcanNd
  have hsortLe := List.sorted_insertionSort recLe (completion.filterMap g)
  have hsortLt := pairwise_recLt_of_recLe_nodup _ hsortLe hsortNd
  exact List.eq_of_perm_of_sorted hsortPerm hsortLt hcanLt

theorem canonical_length {α π τ : Type} (runner : α → Option (π × τ))
    (metric : Option (α → π → τ → ℚ)) (dataset : List α) :
    (canonicalRecords runner metric dataset).length
      = dataset.length - countFailures runner dataset := by
  unfold canonicalRecords countFailures
  have h := length_filterMap_add_countP
    (fun p : ℕ × α => process_example runner metric p.2 p.1) dataset.enum
  have hcnt : dataset.enum.countP
      (fun p => (process_example runner metric p.2 p.1).isNone)
      = dataset.countP (fun ex => (runner ex).isNone) := by
    have hmap : dataset.enum.map Prod.snd = dataset := List.enum_map_snd dataset
    calc dataset.enum.countP (fun p => (process_example runner metric p.2 p.1).isNone)
        = dataset.enum.countP (fun p => (runner p.2).isNone) := by
          refine List.countP_congr ?_
          intro p _
          have := process_example_isSome_iff runner metric p.2 p.1
          cases h1 : process_example runner metric p.2 p.1 <;>
            cases h2 : runner p.2 <;> simp [h1, h2] at this ⊢
      _ = (dataset.enum.map Prod.snd).countP (fun ex => (runner ex).isNone) := by
          rw [List.countP_map]; rfl
      _ = dataset.countP (fun ex => (runner ex).isNone) := by rw [hmap]
  rw [hcnt] at h
  have hle := List.countP_le_length (l := dataset)
    (p := fun ex => (runner ex).isNone)
  rw [← List.enum_length (l := dataset)]
  omega

theorem canonical_map_ind {α π τ : Type} (runner : α → Option (π × τ))
    (metric : Option (α → π → τ → ℚ)) (dataset : List α) :
    (canonicalRecords runner metric dataset).map (fun r => r.example_ind)
      = (dataset.enum.filter (fun p => (runner p.2).isSome)).map Prod.fst := by
  unfold canonicalRecords
  induction dataset.enum with
  | nil => simp
  | cons p t ih =>
      rw [List.filterMap_cons, List.filter_cons]
      cases hr : runner p.2 with
      | none =>
          have hpe : process_example runner metric p.2 p.1 = none := by
            unfold process_example; rw [hr]
          simp only [hpe, hr]
          simpa using ih
      | some pt =>
          have hpe : process_example runner metric p.2 p.1
              = some { ex := p.2, prediction := pt.1, trace := pt.2,
                       example_ind := p.1,
                       score := metric.map (fun m => m p.2 pt.1 pt.2),
                       round := none } := by
            unfold process_example; rw [hr]
          simp only [hpe, hr]
          simp only [List.map_cons, List.filter_cons]
          simp [ih]

theorem evaluateWarmup_ok {α π τ : Type} (runner : α → Option (π × τ))
    (max_errors : ℕ) (l : List α) (errs : ℕ)
    (h : errs + countFailures runner l ≤ max_errors) :
    evaluateWarmup runner max_errors l errs = Except.ok () := by
  induction l generalizing errs with
  | nil => rfl
  | cons ex rest ih =>
      unfold countFailures at h
      rw [List.countP_cons] at h
      cases hr : runner ex with
      | some pt =>
          simp only [hr, Option.isNone_some] at h
          simp only [evaluateWarmup, hr]
          exact ih errs (by unfold countFailures; omega)
      | none =>
          simp only [hr, Option.isNone_none] at h
          simp only [evaluateWarmup, hr]
          have hlt : ¬ (max_errors < errs + 1) := by simp at h; omega
          simp only [hlt, if_false]
          exact ih (errs + 1) (by unfold countFailures; simp at h; omega)

theorem evaluateWarmup_error {α π τ : Type} (runner : α → Option (π × τ))
    (max_errors : ℕ) (l rest : List α) (errs : ℕ) (hbound : errs ≤ max_errors)
    (h : max_errors < errs + countFailures runner l) :
    evaluateWarmup runner max_errors (l ++ rest) errs
      = Except.error "Evaluate: max errors exceeded" := by
  induction l generalizing errs with
  | nil =>
      unfold countFailures at h
      simp at h
      omega
  | cons ex l2 ih =>
      unfold countFailures at h
      rw [List.countP_cons] at h
      rw [List.cons_append]
      cases hr : runner ex with
      | some pt =>
          simp only [hr, Option.isNone_some] at h
          simp only [evaluateWarmup, hr]
          exact ih errs hbound (by unfold countFailures; simp at h; omega)
      | none =>
          simp only [hr, Option.isNone_none] at h
          simp only [evaluateWarmup, hr]
          by_cases hc : max_errors < errs + 1
          · simp only [hc, if_true]
          · simp only [hc, if_false]
            exact ih (errs + 1) (by omega) (by unfold countFailures; simp at h; omega)

/-- C1: with a covering error budget, `bootstrap_data` succeeds and returns
exactly the records of the non-failing examples, complete, with the right
index set, sorted strictly ascending by `example_ind`, independent of the
worker-pool completion order and of `num_threads`. -/
theorem C1_bootstrap_data_complete_sorted {α π τ : Type}
    (runner : α → Option (π × τ)) (metric : Option (α → π → τ → ℚ))
    (dataset : List α) (num_threads : Option ℕ) (max_errors : ℕ)
    (completion : List (ℕ × α))
    (hbudget : countFailures runner dataset ≤ max_errors)
    (hperm : completion.Perm dataset.enum) :
    bootstrap_data runner metric dataset num_threads max_errors completion
        = Except.ok (canonicalRecords runner metric dataset)
    ∧ (canonicalRecords runner metric dataset).length
        = dataset.length - countFailures runner dataset
    ∧ (canonicalRecords runner metric dataset).map (fun r => r.example_ind)
        = (dataset.enum.filter (fun p => (runner p.2).isSome)).map Prod.fst
    ∧ (canonicalRecords runner metric dataset).Pairwise recLt := by
  refine ⟨?_, canonical_length runner metric dataset,
    canonical_map_ind runner metric dataset,
    pairwise_recLt_canonical runner metric dataset⟩
  unfold bootstrap_data
  rw [evaluateWarmup_ok runner max_errors dataset 0 (by omega)]
  rw [process_dataset_threaded_eq_canonical runner metric dataset
    num_threads max_errors completion hperm]
  rfl

/-- Concrete check of C1: dataset `[0,1,2,3,4]`, execution raises on the
example `2`, budget `1`, a shuffled completion order. -/
theorem C1_witness :
    bootstrap_data (fun n : ℕ => if n = 2 then none else some (n, n))
        (none : Option (ℕ → ℕ → ℕ → ℚ)) [0, 1, 2, 3, 4] (some 2) 1
        [(3, 3), (0, 0), (4, 4), (1, 1), (2, 2)]
        = Except.ok (canonicalRecords (fun n : ℕ => if n = 2 then none else some (n, n))
            none [0, 1, 2, 3, 4])
    ∧ (canonicalRecords (fun n : ℕ => if n = 2 then none else some (n, n))
        (none : Option (ℕ → ℕ → ℕ → ℚ)) [0, 1, 2, 3, 4]).length = 5 - 1
    ∧ (canonicalRecords (fun n : ℕ => if n = 2 then none else some (n, n))
        (none : Option (ℕ → ℕ → ℕ → ℚ)) [0, 1, 2, 3, 4]).map (fun r => r.example_ind)
        = [0, 1, 3, 4] := by
  have h := C1_bootstrap_data_complete_sorted
    (fun n : ℕ => if n = 2 then none else some (n, n))
    (none : Option (ℕ → ℕ → ℕ → ℚ)) [0, 1, 2, 3, 4] (some 2) 1
    [(3, 3), (0, 0), (4, 4), (1, 1), (2, 2)]
    (by unfold countFailures; decide) (by decide)
  refine ⟨h.1, ?_, ?_⟩
  · rw [h.2.1]; rfl
  · rw [h.2.2.1]; rfl

/-- C2: once the per-example failures on any processed portion of the
dataset exceed `max_errors`, the whole `bootstrap_data` call fails fatally
with no record list, regardless of what examples remain after that portion
(the budget is enforced as the run progresses by the `Evaluate` pass). -/
theorem C2_bootstrap_data_error_budget_fatal {α π τ : Type}
    (runner : α → Option (π × τ)) (metric : Option (α → π → τ → ℚ))
    (pfx rest : List α) (num_threads : Option ℕ) (max_errors : ℕ)
    (completion : List (ℕ × α))
    (h : max_errors < countFailures runner pfx) :
    bootstrap_data runner metric (pfx ++ rest) num_threads max_errors completion
      = Except.error "Evaluate: max errors exceeded" := by
  unfold bootstrap_data
  rw [evaluateWarmup_error runner max_errors pfx rest 0 (by omega) (by omega)]
  rfl

/-- Concrete check of C2: failures `2` on the first three examples exceed
the budget `1`; the call fails even though more examples follow. -/
theorem C2_witness :
    bootstrap_data (fun n : ℕ => if n % 2 = 0 then none else some (n, n))
        (none : Option (ℕ → ℕ → ℕ → ℚ)) ([2, 1, 4] ++ [3, 5]) (some 2) 1 []
        = Except.error "Evaluate: max errors exceeded" :=
  C2_bootstrap_data_error_budget_fatal
    (fun n : ℕ => if n % 2 = 0 then none else some (n, n))
    (none : Option (ℕ → ℕ → ℕ → ℚ)) [2, 1, 4] [3, 5] (some 2) 1 []
    (by unfold countFailures; decide)

/-- C3: the effective temperature applied by `bootstrap_data_for_round` is
exactly `base + sampling_temperature_delta * sampling_round`, where `base`
is `sampling_temperature` when given and otherwise the LM's configured
temperature; it is strictly monotone in the round for positive delta; and
the documented instance `0.9 + 0.001 * 3 = 0.903` holds. -/
theorem C3_effective_temperature (sampling_temperature : Option ℚ)
    (sampling_temperature_delta : ℚ) (lm : LM) :
    (∀ r : ℕ,
      (copy_model_with_updated_temp sampling_temperature sampling_temperature_delta r lm).temperature
        = sampling_temperature.getD lm.temperature + sampling_temperature_delta * r)
    ∧ (0 < sampling_temperature_delta → ∀ r1 r2 : ℕ, r1 < r2 →
      (copy_model_with_updated_temp sampling_temperature sampling_temperature_delta r1 lm).temperature
        < (copy_model_with_updated_temp sampling_temperature sampling_temperature_delta r2 lm).temperature)
    ∧ (copy_model_with_updated_temp (some (9/10)) (1/1000) 3 lm).temperature = 903/1000 := by
  have hval : ∀ r : ℕ,
      (copy_model_with_updated_temp sampling_temperature sampling_temperature_delta r lm).temperature
        = sampling_temperature.getD lm.temperature + sampling_temperature_delta * r := by
    intro r
    cases sampling_temperature <;>
      simp [copy_model_with_updated_temp, LM.copy, Option.getD]
  refine ⟨hval, ?_, ?_⟩
  · intro hpos r1 r2 hr
    rw [hval r1, hval r2]
    have hcast : (r1 : ℚ) < (r2 : ℚ) := by exact_mod_cast hr
    have := mul_lt_mul_of_pos_left hcast hpos
    linarith
  · simp [copy_model_with_updated_temp, LM.copy]
    norm_num

/-- Concrete check of C3: the documented scenario and one strict increase,
plus the `sampling_temperature=None` case reusing the LM's temperature. -/
theorem C3_witness :
    (copy_model_with_updated_temp (some (9/10)) (1/1000) 3 ⟨"m", 1/2⟩).temperature = 903/1000
    ∧ (copy_model_with_updated_temp (some (9/10)) (1/1000) 0 ⟨"m", 1/2⟩).temperature
        < (copy_model_with_updated_temp (some (9/10)) (1/1000) 3 ⟨"m", 1/2⟩).temperature
    ∧ (copy_model_with_updated_temp none (1/1000) 2 ⟨"m", 1/2⟩).temperature
        = 1/2 + (1/1000) * 2 := by
  have h1 := C3_effective_temperature (some (9/10)) (1/1000) ⟨"m", 1/2⟩
  have h2 := C3_effective_temperature none (1/1000) ⟨"m", 1/2⟩
  refine ⟨h1.2.2, h1.2.1 (by norm_num) 0 3 (by norm_num), ?_⟩
  rw [h2.1 2]
  norm_num

/-! Teacher preparation (`prepare_teacher`, finetune_teleprompter.py
lines 37-78).  The predictor graph is embedded as the ordered list of
`named_predictors()`; predictor object identity is embedded as a numeric
id (two predictors are "the same" exactly when their ids coincide, per the
spec's identity-not-structural-equality rule). -/

structure PredictorNode where
  id : ℕ
  lm : Option LM
  deriving Repr, DecidableEq

structure Program where
  preds : List (String × PredictorNode)
  deriving Repr, DecidableEq

/-- Ordered predictor-name shape of a program. -/
def Program.predNames (p : Program) : List String := p.preds.map Prod.fst

/-- The identities of the predictor objects of a program. -/
def Program.predIds (p : Program) : List ℕ := p.preds.map (fun np => np.2.id)

def Program.maxId (p : Program) : ℕ := p.predIds.foldr max 0

/-- Modelled from the spec: `Program.deepcopy` (not under `src/`) produces
an independent graph with no aliasing to the original — same ordered
predictor names, fresh predictor objects (fresh ids), deep-copied state. -/
def Program.deepcopy (p : Program) : Program :=
  ⟨p.preds.map (fun np => (np.1, { np.2 with id := np.2.id + p.maxId + 1 }))⟩

/-- Modelled from the spec: `_assert_structural_equivalency` (not under
`src/`) — the two programs must have identical ordered predictor-name
shape. -/
def structurallyEquivalentB (s t : Program) : Bool :=
  s.predNames == t.predNames

/-- Modelled from the spec: `_assert_no_shared_predictor` (not under
`src/`) — no predictor object of one program is the same instance as a
predictor object of the other. -/
def noSharedPredictorB (s t : Program) : Bool :=
  s.predIds.all (fun i => !(t.predIds.contains i))

/-- Modelled from the spec: `_assert_lm_consistency` (not under `src/`) —
either a process-wide default LM is configured, or every predictor has an
explicitly bound LM. -/
def lmConsistentB (settingsLm : Option LM) (t : Program) : Bool :=
  settingsLm.isSome || t.preds.all (fun np => np.2.lm.isSome)

/-- Modelled from the spec: `_set_all_predictor_lms` (not under `src/`). -/
def Program.setAllPredictorLms (lm : LM) (p : Program) : Program :=
  ⟨p.preds.map (fun np => (np.1, { np.2 with lm := some lm }))⟩

/-- `prepare_teacher(student, teacher=None)` (finetune_teleprompter.py
lines 37-78): clone the student when no teacher is given, otherwise clone
the supplied teacher; then run the structural-equivalency,
no-shared-predictor and LM-consistency assertions; finally, if a global LM
is configured, push it onto every predictor of the copied teacher.  The
embedding performs no LM calls anywhere: all three checks happen before
any LM work. -/
def prepare_teacher (settingsLm : Option LM) (student : Program)
    (teacher : Option Program) : Except String Program :=
  let t := match teacher with
    | none => student.deepcopy
    | some tp => tp.deepcopy
  if structurallyEquivalentB student t then
    if noSharedPredictorB student t then
      if lmConsistentB settingsLm t then
        Except.ok (match settingsLm with
          | some lm => Program.setAllPredictorLms lm t
          | none => t)
      else Except.error "lm consistency check failed"
    else Except.error "shared predictor check failed"
  else Except.error "structural equivalency check failed"

theorem predNames_deepcopy (p : Program) : p.deepcopy.predNames = p.predNames := by
  unfold Program.deepcopy Program.predNames
  simp

theorem predIds_deepcopy (p : Program) :
    p.deepcopy.predIds = p.predIds.map (fun i => i + p.maxId + 1) := by
  unfold Program.deepcopy Program.predIds
  simp

theorem predNames_setAll (lm : LM) (p : Program) :
    (Program.setAllPredictorLms lm p).predNames = p.predNames := by
  unfold Program.setAllPredictorLms Program.predNames
  simp

theorem predIds_setAll (lm : LM) (p : Program) :
    (Program.setAllPredictorLms lm p).predIds = p.predIds := by
  unfold Program.setAllPredictorLms Program.predIds
  simp

theorem mem_le_foldr_max (l : List ℕ) (i : ℕ) (h : i ∈ l) : i ≤ l.foldr max 0 := by
  induction l with
  | nil => exact absurd h (List.not_mem_nil i)
  | cons a t ih =>
      rcases List.mem_cons.mp h with h1 | h2
      · rw [h1, List.foldr_cons]; exact Nat.le_max_left _ _
      · rw [List.foldr_cons]; exact Nat.le_trans (ih h2) (Nat.le_max_right _ _)

theorem deepcopy_ids_fresh (p : Program) :
    ∀ i ∈ p.deepcopy.predIds, i ∉ p.predIds := by
  intro i hi hmem
  rw [predIds_deepcopy] at hi
  rcases List.mem_map.mp hi with ⟨j, _, hj2⟩
  have hle := mem_le_foldr_max p.predIds i hmem
  unfold Program.maxId at hj2
  omega

/-- C4: `prepare_teacher(student, teacher=None)`, whenever it returns a
teacher, returns one with the same ordered predictor-name shape as the
student and with no predictor object identical to any student predictor
object. -/
theorem C4_prepare_teacher_default_clone (settingsLm : Option LM)
    (student t : Program)
    (h : prepare_teacher settingsLm student none = Except.ok t) :
    t.predNames = student.predNames ∧ ∀ i ∈ t.predIds, i ∉ student.predIds := by
  unfold prepare_teacher at h
  by_cases h1 : structurallyEquivalentB student student.deepcopy
  · by_cases h2 : noSharedPredictorB student student.deepcopy
    · by_cases h3 : lmConsistentB settingsLm student.deepcopy
      · simp only [h1, h2, h3, if_true] at h
        cases hset : settingsLm with
        | none =>
            rw [hset] at h
            simp only [Except.ok.injEq] at h
            rw [← h]
            exact ⟨predNames_deepcopy student, deepcopy_ids_fresh student⟩
        | some lm =>
            rw [hset] at h
            simp only [Except.ok.injEq] at h
            rw [← h]
            constructor
            · rw [predNames_setAll, predNames_deepcopy]
            · rw [predIds_setAll]
              exact deepcopy_ids_fresh student
      · simp only [h1, h2, h3, if_true, if_false] at h
        simp at h
    · simp only [h1, h2, if_true, if_false] at h
      simp at h
  · simp only [h1, if_false] at h
    simp at h

/-- Concrete check of C4 on a two-predictor student with a global LM. -/
theorem C4_witness :
    (Program.mk [("p1", ⟨7, some ⟨"m", 1/2⟩⟩), ("p2", ⟨11, some ⟨"m", 1/2⟩⟩)]).predNames
        = (Program.mk [("p1", ⟨1, none⟩), ("p2", ⟨5, none⟩)]).predNames := by
  have h := C4_prepare_teacher_default_clone (some ⟨"m", 1/2⟩)
    (Program.mk [("p1", ⟨1, none⟩), ("p2", ⟨5, none⟩)])
    (Program.mk [("p1", ⟨7, some ⟨"m", 1/2⟩⟩), ("p2", ⟨11, some ⟨"m", 1/2⟩⟩)])
    rfl
  exact h.1

/-- C5: for a supplied teacher whose ordered predictor-name shape differs
from the student's, `prepare_teacher` fails fatally with the structural
equivalency error; in the embedding `prepare_teacher` performs no LM call,
so the failure precedes any LM work. -/
theorem C5_prepare_teacher_shape_mismatch_fatal (settingsLm : Option LM)
    (student teacher : Program)
    (h : student.predNames ≠ teacher.predNames) :
    prepare_teacher settingsLm student (some teacher)
      = Except.error "structural equivalency check failed" := by
  unfold prepare_teacher
  have hne : structurallyEquivalentB student teacher.deepcopy = false := by
    unfold structurallyEquivalentB
    rw [predNames_deepcopy]
    simp only [beq_eq_false_iff_ne, ne_eq]
    exact h
  simp only [hne, Bool.false_eq_true, if_false]

/-- Concrete check of C5: a one-predictor student against a two-predictor
teacher. -/
theorem C5_witness :
    prepare_teacher none (Program.mk [("p1", ⟨1, none⟩)])
        (some (Program.mk [("a", ⟨2, none⟩), ("b", ⟨3, none⟩)]))
      = Except.error "structural equivalency check failed" :=
  C5_prepare_teacher_shape_mismatch_fatal none
    (Program.mk [("p1", ⟨1, none⟩)])
    (Program.mk [("a", ⟨2, none⟩), ("b", ⟨3, none⟩)])
    (by decide)

/-! Trace-to-training-message conversion (`build_messages_from_trace` and
`convert_to_module_level_message_data`, finetune_teleprompter.py lines
81-164). -/

structure ChatMessage where
  role : String
  content : String
  deriving Repr, DecidableEq

/-- The adapter operations consumed by the converter
(`dspy.settings.adapter or dspy.ChatAdapter()`): `format` renders the
request side, `format_completion` renders the assistant turn. -/
structure AdapterOps (Sig Demo FIn FOut : Type) where
  format : Sig → List Demo → FIn → List ChatMessage
  format_completion : Sig → FOut → String

/-- The predictor data read from one trace observation: its signature and
its demonstrations. -/
structure TracePredictor (Sig Demo : Type) where
  signature : Sig
  demos : List Demo

/-- `build_messages_from_trace(trace, exclude_demos, ...)`
(finetune_teleprompter.py lines 133-164): for each
`(pred, inputs, outputs)` observation, take the predictor's demos (an empty
list when `exclude_demos`), render `adapter.format(pred.signature, demos,
inputs)`, and append one assistant message with content
`adapter.format_completion(pred.signature, outputs)`.  The source also
accepts `try_to_record_lm_kwargs` and `program`, which it never uses for
the produced messages (the `pred_ind_to_name` map built from `program` is
dead); the embedding mirrors them as ignored arguments. -/
def build_messages_from_trace {Sig Demo FIn FOut : Type}
    (adapter : AdapterOps Sig Demo FIn FOut)
    (trace : List (TracePredictor Sig Demo × FIn × FOut))
    (exclude_demos : Bool) (_try_to_record_lm_kwargs : Bool := false) :
    List (List ChatMessage) :=
  trace.map (fun obs =>
    let demos := if exclude_demos then [] else obs.1.demos
    adapter.format obs.1.signature demos obs.2.1 ++
      [{ role := "assistant",
         content := adapter.format_completion obs.1.signature obs.2.2 }])

/-- One input dictionary of `convert_to_module_level_message_data`; its
`"trace"` field is the part the converter reads (the other keys only
matter for the `keep_data_keys` merge, which raises before using them). -/
structure TraceRecord (Sig Demo FIn FOut : Type) where
  trace : List (TracePredictor Sig Demo × FIn × FOut)

/-- `convert_to_module_level_message_data(data, keep_data_keys, ...)`
(finetune_teleprompter.py lines 81-130): for each record, build the
message sequences from its trace and append them to the output; when
`keep_data_keys` is set the source executes
`{**data_dict, **prompt_completion_dict}` where `prompt_completion_dict`
is one of the message sequences — a `list`, not a mapping — so Python
raises `TypeError` on the first sequence of the first record with a
non-empty trace, and the whole call fails with no result. -/
def convert_to_module_level_message_data {Sig Demo FIn FOut : Type}
    (adapter : AdapterOps Sig Demo FIn FOut)
    (keep_data_keys exclude_demos : Bool) :
    List (TraceRecord Sig Demo FIn FOut) →
    Except String (List (List ChatMessage))
  | [] => Except.ok []
  | r :: rs =>
      let msgs := build_messages_from_trace adapter r.trace exclude_demos
      if keep_data_keys && !msgs.isEmpty then
        Except.error "TypeError: list object is not a mapping"
      else
        match convert_to_module_level_message_data adapter keep_data_keys exclude_demos rs with
        | Except.error e => Except.error e
        | Except.ok rest => Except.ok (msgs ++ rest)

/-- C6: the converter yields exactly one message sequence per trace
observation, in trace order; each sequence is the adapter-formatted
request side (with the predictor's own demos unless `exclude_demos`, in
which case an empty demo list) followed by exactly one final
assistant-role message whose content is `format_completion(signature,
outputs)`. -/
theorem C6_build_messages_from_trace {Sig Demo FIn FOut : Type}
    (adapter : AdapterOps Sig Demo FIn FOut)
    (tr : List (TracePredictor Sig Demo × FIn × FOut))
    (exclude_demos : Bool) :
    (build_messages_from_trace adapter tr exclude_demos).length = tr.length
    ∧ ∀ (i : ℕ) obs, tr[i]? = some obs →
        (build_messages_from_trace adapter tr exclude_demos)[i]?
          = some (adapter.format obs.1.signature
                (if exclude_demos then [] else obs.1.demos) obs.2.1
              ++ [{ role := "assistant",
                    content := adapter.format_completion obs.1.signature obs.2.2 }])
        ∧ (adapter.format obs.1.signature
                (if exclude_demos then [] else obs.1.demos) obs.2.1
              ++ [ChatMessage.mk "assistant"
                    (adapter.format_completion obs.1.signature obs.2.2)]).getLast?
          = some (ChatMessage.mk "assistant"
              (adapter.format_completion obs.1.signature obs.2.2)) := by
  constructor
  · unfold build_messages_from_trace
    exact List.length_map tr _
  · intro i obs hobs
    constructor
    · unfold build_messages_from_trace
      rw [List.getElem?_map, hobs]
      rfl
    · exact List.getLast?_concat _

/-- A concrete adapter used for the closed checks below. -/
def demoAdapter : AdapterOps ℕ ℕ ℕ ℕ where
  format := fun _ demos _ => [{ role := "user", content := toString demos.length }]
  format_completion := fun _ o => toString o

/-- Concrete check of C6: a two-observation trace yields two sequences,
the first being the formatted request plus one assistant completion. -/
theorem C6_witness :
    (build_messages_from_trace demoAdapter
        [(⟨0, [1, 2]⟩, 5, 7), (⟨1, []⟩, 6, 8)] false).length = 2
    ∧ (build_messages_from_trace demoAdapter
        [(⟨0, [1, 2]⟩, 5, 7), (⟨1, []⟩, 6, 8)] false)[0]?
        = some [{ role := "user", content := "2" },
                { role := "assistant", content := "7" }] := by
  have h := C6_build_messages_from_trace demoAdapter
    [(⟨0, [1, 2]⟩, 5, 7), (⟨1, []⟩, 6, 8)] false
  refine ⟨h.1, ?_⟩
  have h2 := (h.2 0 (⟨0, [1, 2]⟩, 5, 7) rfl).1
  rw [h2]
  rfl

/-- C7 (code bug): with `keep_data_keys=True` and a record whose trace is
non-empty, the source raises `TypeError` (it splats a message list as a
mapping) instead of merging the record's fields into each entry as its own
docstring describes; with `keep_data_keys=False` the flattened
concatenation is returned as documented. -/
theorem C7_keep_data_keys_type_error :
    convert_to_module_level_message_data demoAdapter true false
        [⟨[(⟨0, [1, 2]⟩, 5, 7)]⟩]
      = Except.error "TypeError: list object is not a mapping"
    ∧ convert_to_module_level_message_data demoAdapter false false
        [⟨[(⟨0, [1, 2]⟩, 5, 7)]⟩, ⟨[(⟨1, []⟩, 6, 8)]⟩]
      = Except.ok [[{ role := "user", content := "2" },
                    { role := "assistant", content := "7" }],
                   [{ role := "user", content := "0" },
                    { role := "assistant", content := "8" }]] :=
  ⟨rfl, rfl⟩

/-! The adapter invocation contract (`Adapter.__call__`,
`dspy/adapters/base.py`).  `parse` is the subclass hook embedded as a
function argument; a parsed value is its list of `(key, value)` pairs; the
key-set assertion compares Python sets, embedded as `Finset` equality. -/

/-- `Adapter.__call__` (base.py lines 2-19) restricted to its parsing
loop: for each raw completion in order, parse it; re-raise a parse error
immediately; assert that the parsed key set equals the signature's output
field set, raising `AssertionError` otherwise; collect the values in
completion order. -/
def Adapter.call (parse : String → Except String (List (String × String)))
    (output_fields : List String) :
    List String → Except String (List (List (String × String)))
  | [] => Except.ok []
  | o :: rest =>
      match parse o with
      | Except.error e => Except.error e
      | Except.ok value =>
          if (value.map Prod.fst).toFinset = output_fields.toFinset then
            match Adapter.call parse output_fields rest with
            | Except.error e => Except.error e
            | Except.ok vs => Except.ok (value :: vs)
          else Except.error "AssertionError: output field keys mismatch"

/-- Whether one completion parses and yields exactly the signature's
output key set. -/
def parsesCleanlyB (parse : String → Except String (List (String × String)))
    (output_fields : List String) (o : String) : Bool :=
  match parse o with
  | Except.error _ => false
  | Except.ok v => decide ((v.map Prod.fst).toFinset = output_fields.toFinset)

/-- C8: if any completion fails to parse or yields a wrong key set, the
whole call raises (no partial result list); if every completion parses
with exactly the signature's output key set, the call returns one parsed
value per completion, in completion order. -/
theorem C8_adapter_call_contract
    (parse : String → Except String (List (String × String)))
    (output_fields : List String) (outputs : List String) :
    ((∃ o ∈ outputs, parsesCleanlyB parse output_fields o = false) →
      ∃ e, Adapter.call parse output_fields outputs = Except.error e)
    ∧ ((∀ o ∈ outputs, parsesCleanlyB parse output_fields o = true) →
      ∃ l, Adapter.call parse output_fields outputs = Except.ok l
        ∧ l.length = outputs.length
        ∧ ∀ (i : ℕ) o2, outputs[i]? = some o2 → l[i]? = (parse o2).toOption) := by
  induction outputs with
  | nil =>
      constructor
      · intro h
        exact absurd h (by simp)
      · intro _
        exact ⟨[], rfl, rfl, by intro i o2 h2; simp at h2⟩
  | cons o rest ih =>
      constructor
      · intro h
        rcases h with ⟨b, hb, hbad⟩
        rcases List.mem_cons.mp hb with hb1 | hb2
        · subst hb1
          unfold parsesCleanlyB at hbad
          cases hp : parse b with
          | error e => exact ⟨e, by unfold Adapter.call; rw [hp]⟩
          | ok v =>
              rw [hp] at hbad
              simp only [decide_eq_false_iff_not] at hbad
              refine ⟨"AssertionError: output field keys mismatch", ?_⟩
              unfold Adapter.call
              rw [hp]
              simp only [hbad, if_false]
        · cases hp : parse o with
          | error e => exact ⟨e, by unfold Adapter.call; rw [hp]⟩
          | ok v =>
              by_cases hk : (v.map Prod.fst).toFinset = output_fields.toFinset
              · rcases ih.1 ⟨b, hb2, hbad⟩ with ⟨e, he⟩
                refine ⟨e, ?_⟩
                unfold Adapter.call
                rw [hp]
                simp only [hk, if_true, he]
              · refine ⟨"AssertionError: output field keys mismatch", ?_⟩
                unfold Adapter.call
                rw [hp]
                simp only [hk, if_false]
      · intro h
        have hgood := h o (List.mem_cons_self o rest)
        unfold parsesCleanlyB at hgood
        cases hp : parse o with
        | error e => rw [hp] at hgood; exact absurd hgood (by simp)
        | ok v =>
            rw [hp] at hgood
            simp only [decide_eq_true_eq] at hgood
            rcases ih.2 (fun b hb => h b (List.mem_cons_of_mem o hb)) with
              ⟨l, hl, hlen, hidx⟩
            refine ⟨v :: l, ?_, by simp [hlen], ?_⟩
            · unfold Adapter.call
              rw [hp]
              simp only [hgood, if_true, hl]
            · intro i o2 h2
              cases i with
              | zero =>
                  simp at h2
                  subst h2
                  simp [hp, Except.toOption]
              | succ j =>
                  simp only [List.getElem?_cons_succ] at h2 ⊢
                  exact hidx j o2 h2

/-- A concrete parser for the closed check of C8. -/
def demoParse (s : String) : Except String (List (String × String)) :=
  if s = "good" then Except.ok [("answer", "42")] else Except.error "ParseError"

/-- Concrete check of C8: one bad completion makes the whole call raise;
an all-good batch returns one value per completion. -/
theorem C8_witness :
    (Adapter.call demoParse ["answer"] ["good", "bad"]).isOk = false
    ∧ (Adapter.call demoParse ["answer"] ["good", "good"]).isOk = true := by
  obtain ⟨e, he⟩ := (C8_adapter_call_contract demoParse ["answer"] ["good", "bad"]).1
    ⟨"bad", by decide, by rfl⟩
  obtain ⟨l, hl, _, _⟩ := (C8_adapter_call_contract demoParse ["answer"] ["good", "good"]).2
    (by decide)
  rw [he, hl]
  exact ⟨rfl, rfl⟩

/-! The `format_completion` / `parse` round trip (claim C9).  The adapter
pair used by the converter (`dspy.ChatAdapter`) is not under `src/`; it is
modelled from the spec at the granularity of text lines: a completion is a
list of lines, each output field is introduced by its marker line and
followed by its value lines, and parsing scans for marker lines and
collects the lines up to the next marker as that field's value. -/

/-- The marker line introducing one output field's section. -/
def fieldMarker (f : String) : String :=
  "[[ ## " ++ f ++ " ## ]]"

/-- Whether a line is the marker of one of the given output fields. -/
def isMarkerOf (fields : List String) (l : String) : Bool :=
  (fields.find? (fun f => l == fieldMarker f)).isSome

/-- Modelled from the spec: `ChatAdapter.format_completion` (not under
`src/`) renders the assistant turn for a signature's output fields — for
each declared field, its marker line followed by that field's value
lines. -/
def ChatAdapter.format_completion (fields : List String)
    (vals : String → List String) : List String :=
  fields.flatMap (fun f => fieldMarker f :: vals f)

theorem length_dropWhile_le_gen {β : Type} (p : β → Bool) (l : List β) :
    (l.dropWhile p).length ≤ l.length := by
  induction l with
  | nil => simp [List.dropWhile]
  | cons a t ih =>
      rw [List.dropWhile]
      cases p a
      · simp
      · simp
        omega

/-- Modelled from the spec: `ChatAdapter.parse` (not under `src/`)
extracts a value for every declared output field from one raw completion:
scan the lines; on a line that is the marker of a declared field, collect
the following lines up to the next marker as that field's value. -/
def ChatAdapter.parse (fields : List String) : List String → List (String × List String)
  | [] => []
  | l :: rest =>
      match fields.find? (fun f => l == fieldMarker f) with
      | some f =>
          (f, rest.takeWhile (fun s => !(isMarkerOf fields s))) ::
            ChatAdapter.parse fields (rest.dropWhile (fun s => !(isMarkerOf fields s)))
      | none => ChatAdapter.parse fields rest
  termination_by ls => ls.length
  decreasing_by
  · simp only [List.length_cons]
    exact Nat.lt_succ_of_le (length_dropWhile_le_gen _ rest)
  · simp only [List.length_cons]
    exact Nat.lt_succ_of_le (Nat.le_refl rest.length)

theorem fieldMarker_inj (f g : String) (h : fieldMarker f = fieldMarker g) : f = g := by
  unfold fieldMarker at h
  have hd := congrArg String.data h
  rw [String.data_append, String.data_append, String.data_append, String.data_append] at hd
  have h1 := List.append_left_injective " ## ]]".data hd
  have h2 := List.append_right_injective "[[ ## ".data h1
  cases f
  cases g
  exact congrArg String.mk h2

theorem find_marker_self (fields : List String) (f : String) (hf : f ∈ fields) :
    fields.find? (fun g => fieldMarker f == fieldMarker g) = some f := by
  induction fields with
  | nil => cases hf
  | cons a t ih =>
      by_cases hfa : (fieldMarker f == fieldMarker a) = true
      · have heq : f = a := fieldMarker_inj f a (by simpa using hfa)
        simp only [List.find?, hfa]
        rw [heq]
      · have hfalse : (fieldMarker f == fieldMarker a) = false := by
          simpa using hfa
        simp only [List.find?, hfalse]
        have hft : f ∈ t := by
          rcases List.mem_cons.mp hf with h1 | h2
          · exact absurd (by rw [h1]; exact beq_self_eq_true _) hfa
          · exact h2
        exact ih hft

theorem isMarkerOf_marker (fields : List String) (g : String) (hg : g ∈ fields) :
    isMarkerOf fields (fieldMarker g) = true := by
  unfold isMarkerOf
  rw [find_marker_self fields g hg]
  rfl

theorem takeWhile_append_all {β : Type} (p : β → Bool) (xs ys : List β)
    (h : ∀ x ∈ xs, p x = true) :
    (xs ++ ys).takeWhile p = xs ++ ys.takeWhile p := by
  induction xs with
  | nil => rfl
  | cons a t ih =>
      have ha := h a (List.mem_cons_self a t)
      simp [List.cons_append, List.takeWhile_cons, ha]
      exact ih (fun x hx => h x (List.mem_cons_of_mem a hx))

theorem dropWhile_append_all {β : Type} (p : β → Bool) (xs ys : List β)
    (h : ∀ x ∈ xs, p x = true) :
    (xs ++ ys).dropWhile p = ys.dropWhile p := by
  induction xs with
  | nil => rfl
  | cons a t ih =>
      have ha := h a (List.mem_cons_self a t)
      simp [List.cons_append, List.dropWhile_cons, ha]
      exact ih (fun x hx => h x (List.mem_cons_of_mem a hx))

theorem parse_format_sub (fields : List String) (vals : String → List String)
    (hvals : ∀ f ∈ fields, ∀ l ∈ vals f, isMarkerOf fields l = false)
    (sub : List String) (hsub : ∀ f ∈ sub, f ∈ fields) :
    ChatAdapter.parse fields (ChatAdapter.format_completion sub vals)
      = sub.map (fun f => (f, vals f)) := by
  induction sub with
  | nil =>
      show ChatAdapter.parse fields [] = []
      simp [ChatAdapter.parse]
  | cons f sub2 ih =>
      have hf : f ∈ fields := hsub f (List.mem_cons_self f sub2)
      have hfmt : ChatAdapter.format_completion (f :: sub2) vals
          = fieldMarker f :: (vals f ++ ChatAdapter.format_completion sub2 vals) := by
        unfold ChatAdapter.format_completion
        rw [List.flatMap_cons, List.cons_append]
      rw [hfmt]
      have hnm : ∀ x ∈ vals f, (!(isMarkerOf fields x)) = true := by
        intro x hx
        rw [hvals f hf x hx]
        rfl
      have htail_take : (ChatAdapter.format_completion sub2 vals).takeWhile
          (fun s => !(isMarkerOf fields s)) = [] := by
        cases hsub2 : sub2 with
        | nil => rfl
        | cons g sub3 =>
            have hg : g ∈ fields := hsub g (by rw [hsub2]; simp)
            unfold ChatAdapter.format_completion
            rw [List.flatMap_cons, List.cons_append, List.takeWhile_cons]
            rw [isMarkerOf_marker fields g hg]
            rfl
      have htail_drop : (ChatAdapter.format_completion sub2 vals).dropWhile
          (fun s => !(isMarkerOf fields s)) = ChatAdapter.format_completion sub2 vals := by
        cases hsub2 : sub2 with
        | nil => rfl
        | cons g sub3 =>
            have hg : g ∈ fields := hsub g (by rw [hsub2]; simp)
            unfold ChatAdapter.format_completion
            rw [List.flatMap_cons, List.cons_append, List.dropWhile_cons]
            rw [isMarkerOf_marker fields g hg]
            rfl
      have htake : (vals f ++ ChatAdapter.format_completion sub2 vals).takeWhile
          (fun s => !(isMarkerOf fields s)) = vals f := by
        rw [takeWhile_append_all _ _ _ hnm, htail_take, List.append_nil]
      have hdrop : (vals f ++ ChatAdapter.format_completion sub2 vals).dropWhile
          (fun s => !(isMarkerOf fields s)) = ChatAdapter.format_completion sub2 vals := by
        rw [dropWhile_append_all _ _ _ hnm, htail_drop]
      simp only [ChatAdapter.parse]
      rw [find_marker_self fields f hf]
      rw [htake, hdrop]
      rw [ih (fun x hx => hsub x (List.mem_cons_of_mem f hx))]
      rfl

/-- C9: parsing the formatted completion with the same signature recovers
the original output field values: for any assignment of (marker-free)
value lines to the signature's output fields, `parse` applied to
`format_completion` returns exactly the fields with their original
values. -/
theorem C9_format_completion_parse_round_trip (fields : List String)
    (vals : String → List String)
    (hvals : ∀ f ∈ fields, ∀ l ∈ vals f, isMarkerOf fields l = false) :
    ChatAdapter.parse fields (ChatAdapter.format_completion fields vals)
      = fields.map (fun f => (f, vals f)) :=
  parse_format_sub fields vals hvals fields (fun _ hf => hf)

/-- Concrete check of C9: a two-field signature with a multi-line value
round-trips. -/
theorem C9_witness :
    ChatAdapter.parse ["reasoning", "answer"]
        (ChatAdapter.format_completion ["reasoning", "answer"]
          (fun f => if f = "answer" then ["42"] else ["step 1", "step 2"]))
      = [("reasoning", ["step 1", "step 2"]), ("answer", ["42"])] := by
  rw [C9_format_completion_parse_round_trip ["reasoning", "answer"]
    (fun f => if f = "answer" then ["42"] else ["step 1", "step 2"])
    (by decide)]
  rfl

/-! The round sampling controller (`bootstrap_data_for_round`,
finetune_teleprompter.py lines 263-385).  To express the frame claim about
mutation, program objects live in an explicit heap (`RoundWorld.progs`)
keyed by object identity; `dspy.settings.lm` is the `settingsLm` state
component; `program.deepcopy()` allocates the clone at the fresh slot, and
the in-place `pred.lm = ...` loop writes only to that slot.  The caller's
dataset is embedded as an immutable list value: the source passes
`dataset.copy()` onward, and the callee never writes to a dataset, so the
caller's list is untouched by construction. -/

structure RoundWorld where
  progs : ℕ → Option Program
  settingsLm : Option LM
  fresh : ℕ

/-- Heap update at one object identity. -/
def setProg (s : ℕ → Option Program) (i : ℕ) (v : Option Program) :
    ℕ → Option Program :=
  fun j => if j = i then v else s j

/-- The `for pred in program.predictors(): pred.lm =
copy_model_with_updated_temp(pred.lm)` loop: every predictor of the (cloned)
program gets a perturbed copy of its own LM; a predictor with no bound LM
makes the source raise (`None.kwargs`). -/
def updatePredictorLms (sampling_temperature : Option ℚ)
    (sampling_temperature_delta : ℚ) (sampling_round : ℕ) (p : Program) :
    Except String Program := do
  let preds ← p.preds.mapM (fun np =>
    match np.2.lm with
    | none => Except.error "AttributeError: NoneType object has no kwargs"
    | some lm => Except.ok (np.1,
        { np.2 with lm := some (copy_model_with_updated_temp sampling_temperature
            sampling_temperature_delta sampling_round lm) }))
  Except.ok ⟨preds⟩

/-- `bootstrap_data_for_round(program, dataset, metric, num_threads,
sampling_round, sampling_temperature, sampling_temperature_delta,
max_errors)` (finetune_teleprompter.py lines 263-385): deep-copy the
program (fresh heap slot) and copy the dataset; when a global LM is set,
run `bootstrap_data` under a `dspy.context` whose LM is a perturbed copy
of it (restored afterwards); otherwise perturb each predictor LM of the
clone in place; finally stamp `round = sampling_round` on every record. -/
def bootstrap_data_for_round {α π τ : Type} (w : RoundWorld) (progId : ℕ)
    (runner : α → Option (π × τ)) (metric : Option (α → π → τ → ℚ))
    (dataset : List α) (completion : List (ℕ × α)) (num_threads : Option ℕ)
    (sampling_round : ℕ) (sampling_temperature : Option ℚ)
    (sampling_temperature_delta : ℚ) (max_errors : ℕ) :
    Except String (RoundWorld × List (BootstrapRecord α π τ)) := do
  let prog ← match w.progs progId with
    | none => Except.error "no such program object"
    | some p => Except.ok p
  let cloneId := w.fresh
  let clone := prog.deepcopy
  let w1 : RoundWorld :=
    { progs := setProg w.progs cloneId (some clone),
      settingsLm := w.settingsLm, fresh := w.fresh + 1 }
  let _datasetCopy := dataset
  let w2 ← match w.settingsLm with
    | some lm =>
        let contextLm := copy_model_with_updated_temp sampling_temperature
          sampling_temperature_delta sampling_round lm
        Except.ok { w1 with settingsLm := some contextLm }
    | none => do
        let clone2 ← updatePredictorLms sampling_temperature
          sampling_temperature_delta sampling_round clone
        Except.ok { w1 with progs := setProg w1.progs cloneId (some clone2) }
  let data ← bootstrap_data runner metric dataset num_threads max_errors completion
  let w3 : RoundWorld := { w2 with settingsLm := w.settingsLm }
  Except.ok (w3, data.map (fun r => { r with round := some sampling_round }))

/-- C10: whenever `bootstrap_data_for_round` returns, every pre-existing
heap object — in particular the caller's program with all its predictor LM
bindings — is unchanged (the clone lives at the previously free slot), the
global LM binding `settings.lm` is restored to its original value, and
every returned record carries `round = sampling_round`.  The caller's
dataset is an immutable value in the embedding (the source passes a copy
onward). -/
theorem C10_bootstrap_data_for_round_frame {α π τ : Type} (w : RoundWorld)
    (progId : ℕ) (runner : α → Option (π × τ))
    (metric : Option (α → π → τ → ℚ)) (dataset : List α)
    (completion : List (ℕ × α)) (num_threads : Option ℕ)
    (sampling_round : ℕ) (sampling_temperature : Option ℚ)
    (sampling_temperature_delta : ℚ) (max_errors : ℕ)
    (wF : RoundWorld) (recs : List (BootstrapRecord α π τ))
    (hfresh : w.progs w.fresh = none)
    (h : bootstrap_data_for_round w progId runner metric dataset completion
        num_threads sampling_round sampling_temperature
        sampling_temperature_delta max_errors = Except.ok (wF, recs)) :
    (∀ i, w.progs i ≠ none → wF.progs i = w.progs i)
    ∧ wF.settingsLm = w.settingsLm
    ∧ ∀ r ∈ recs, r.round = some sampling_round := by
  unfold bootstrap_data_for_round at h
  cases hp : w.progs progId with
  | none =>
      rw [hp] at h
      simp [Bind.bind, Except.bind] at h
  | some prog =>
      rw [hp] at h
      dsimp only at h
      cases hs : w.settingsLm with
      | some lm =>
          rw [hs] at h
          dsimp only at h
          cases hb : bootstrap_data runner metric dataset num_threads
              max_errors completion with
          | error e =>
              rw [hb] at h
              simp [Bind.bind, Except.bind] at h
          | ok data =>
              rw [hb] at h
              simp only [Bind.bind, Except.bind, Except.ok.injEq,
                Prod.mk.injEq] at h
              obtain ⟨hw, hr⟩ := h
              refine ⟨?_, ?_, ?_⟩
              · intro i hi
                rw [← hw]
                have hne : i ≠ w.fresh := by
                  intro hEq
                  rw [hEq] at hi
                  exact hi hfresh
                simp only [setProg]
                rw [if_neg hne]
              · rw [← hw]
              · intro r hr2
                rw [← hr] at hr2
                rcases List.mem_map.mp hr2 with ⟨r0, _, hr0⟩
                rw [← hr0]
      | none =>
          rw [hs] at h
          dsimp only at h
          simp only [Bind.bind, Except.bind] at h
          cases hu : updatePredictorLms sampling_temperature
              sampling_temperature_delta sampling_round prog.deepcopy with
          | error e =>
              rw [hu] at h
              simp [Bind.bind, Except.bind] at h
          | ok clone2 =>
              rw [hu] at h
              simp only [Bind.bind, Except.bind] at h
              cases hb : bootstrap_data runner metric dataset num_threads
                  max_errors completion with
              | error e =>
                  rw [hb] at h
                  simp [Bind.bind, Except.bind] at h
              | ok data =>
                  rw [hb] at h
                  simp only [Bind.bind, Except.bind, Except.ok.injEq,
                    Prod.mk.injEq] at h
                  obtain ⟨hw, hr⟩ := h
                  refine ⟨?_, ?_, ?_⟩
                  · intro i hi
                    rw [← hw]
                    have hne : i ≠ w.fresh := by
                      intro hEq
                      rw [hEq] at hi
                      exact hi hfresh
                    simp only [setProg]
                    rw [if_neg hne, if_neg hne]
                  · rw [← hw]
                  · intro r hr2
                    rw [← hr] at hr2
                    rcases List.mem_map.mp hr2 with ⟨r0, _, hr0⟩
                    rw [← hr0]

/-- Extracts the world of a successful round call (for the closed check). -/
def okWorld {α π τ : Type}
    (e : Except String (RoundWorld × List (BootstrapRecord α π τ)))
    (dflt : RoundWorld) : RoundWorld :=
  match e with
  | Except.ok p => p.1
  | Except.error _ => dflt

/-- Extracts the records of a successful round call (for the closed check). -/
def okRecords {α π τ : Type}
    (e : Except String (RoundWorld × List (BootstrapRecord α π τ))) :
    List (BootstrapRecord α π τ) :=
  match e with
  | Except.ok p => p.2
  | Except.error _ => []

/-- A concrete one-program heap used for the closed check of C10. -/
def demoWorld : RoundWorld where
  progs := fun i => if i = 0 then some ⟨[("p", ⟨3, none⟩)]⟩ else none
  settingsLm := some ⟨"m", 1/2⟩
  fresh := 1

/-- Concrete check of C10: the caller's program slot and the global LM are
unchanged, and the single returned record is stamped with round 4. -/
theorem C10_witness :
    (okWorld (bootstrap_data_for_round demoWorld 0
        (fun n : ℕ => some (n, n)) (none : Option (ℕ → ℕ → ℕ → ℚ)) [9]
        [(0, 9)] (some 1) 4 (some (9/10)) (1/1000) 0) demoWorld).settingsLm
      = demoWorld.settingsLm
    ∧ (okWorld (bootstrap_data_for_round demoWorld 0
        (fun n : ℕ => some (n, n)) (none : Option (ℕ → ℕ → ℕ → ℚ)) [9]
        [(0, 9)] (some 1) 4 (some (9/10)) (1/1000) 0) demoWorld).progs 0
      = demoWorld.progs 0
    ∧ (okRecords (bootstrap_data_for_round demoWorld 0
        (fun n : ℕ => some (n, n)) (none : Option (ℕ → ℕ → ℕ → ℚ)) [9]
        [(0, 9)] (some 1) 4 (some (9/10)) (1/1000) 0)).map
          (fun r => r.round) = [some 4] := by
  obtain ⟨hframe, hlm, hround⟩ := C10_bootstrap_data_for_round_frame demoWorld 0
    (fun n : ℕ => some (n, n)) (none : Option (ℕ → ℕ → ℕ → ℚ)) [9]
    [(0, 9)] (some 1) 4 (some (9/10)) (1/1000) 0 _ _ rfl rfl
  refine ⟨hlm, ?_, ?_⟩
  · exact hframe 0 (by simp [demoWorld])
  · rfl

end DspyFT
